import Mathlib

/-!
Verification development for the automaton-auditor orchestration engine.

The definitions below are a shallow embedding of the Python sources:
  * `src/state.py`    — data model and reducer annotations,
  * `src/graph.py`    — task graph construction and the evidence aggregator,
  * `src/nodes/judges.py` — the opinion synthesis engine (`ChiefJustice`),
  * `src/tools/repo_tools.py` — the structural verifier
    (`RepoTools.analyze_graph_structure`).

Python floats in the scoring arithmetic are modelled as rationals (the
algorithmic, real-number semantics); machine integers as `Int`/`Nat`.
Python functions that can only fail on I/O or parsing take an `Option`
input (`none` = the caught open/parse exception); the embedded functions
are total, which is the shallow rendering of "never raises".
-/

namespace Auditor

/-- Python's substring test `needle in hay` on the character list level:
`prefixCheck n h` is `n` being a prefix of `h`. -/
def prefixCheck : List Char → List Char → Bool
  | [], _ => true
  | _ :: _, [] => false
  | a :: as, b :: bs => a == b && prefixCheck as bs

/-- The `infixCheck n h`: `n` occurs contiguously inside `h`
(true for the empty needle, as in Python). -/
def infixCheck (needle : List Char) : List Char → Bool
  | [] => needle.isEmpty
  | c :: rest => prefixCheck needle (c :: rest) || infixCheck needle rest

/-- Python `needle in hay` for strings. -/
def strContains (hay needle : String) : Bool :=
  infixCheck needle.data hay.data

/-- Python `int()` applied to a (real-valued) float: truncation toward zero. -/
def pyInt (q : ℚ) : ℤ :=
  q.num.tdiv q.den

/-- Python `round()` to an integer: round half to even (banker's rounding). -/
def pyRound (q : ℚ) : ℤ :=
  let fl := q.num.fdiv q.den
  let frac : ℚ := q - fl
  if frac < 1/2 then fl
  else if frac > 1/2 then fl + 1
  else if fl % 2 = 0 then fl else fl + 1

/-! ## Data model (`src/state.py`) -/

/-- The `Evidence` (pydantic model in `src/state.py`): structured forensic
evidence collected by detective agents. -/
structure Evidence where
  goal : String
  found : Bool
  content : Option String := none
  location : String
  rationale : String
  confidence : ℚ
  metadata : Option (List (String × String)) := none
deriving DecidableEq

/-- The `judge` field of `JudicialOpinion` — a
`Literal["Prosecutor", "Defense", "TechLead"]` in `src/state.py`. -/
inductive Judge where
  | Prosecutor
  | Defense
  | TechLead
deriving DecidableEq

/-- The `JudicialOpinion` (pydantic model in `src/state.py`). -/
structure JudicialOpinion where
  judge : Judge
  criterion_id : String
  score : ℤ
  argument : String
  cited_evidence : List String
deriving DecidableEq

/-- The `CriterionResult` (pydantic model in `src/state.py`). -/
structure CriterionResult where
  dimension_id : String
  dimension_name : String
  final_score : ℤ
  judge_opinions : List JudicialOpinion
  dissent_summary : Option String
  remediation : String
deriving DecidableEq

/-- The `AuditReport` (pydantic model in `src/state.py`). -/
structure AuditReport where
  repo_url : String
  executive_summary : String
  overall_score : ℚ
  criteria : List CriterionResult
  remediation_plan : String
deriving DecidableEq

/-- A rubric dimension record (the dict entries of
`state["rubric_dimensions"]`); `ChiefJustice` reads `id` and `name`. -/
structure Dimension where
  id : String
  name : String
  target_artifact : String := ""
  success_pattern : String := ""
  failure_pattern : String := ""
deriving DecidableEq

/-! ## Opinion synthesis (`ChiefJustice` in `src/nodes/judges.py`) -/

/-- The `dim_ops = [o for o in state["opinions"] if o.criterion_id == dim_id]`. -/
def dimOps (opinions : List JudicialOpinion) (dimId : String) : List JudicialOpinion :=
  opinions.filter (fun o => o.criterion_id == dimId)

/-- The dissent string built at `judges.py:144`. -/
def dissentMsg (p d : JudicialOpinion) : String :=
  "Major disagreement: Prosecutor (" ++ toString p.score ++ ") vs Defense (" ++
    toString d.score ++ "). " ++ p.argument.take 50 ++ "... vs " ++
    d.argument.take 50 ++ "..."

/-- The per-dimension outcome of one iteration of the `ChiefJustice` loop:
the appended `CriterionResult` together with the pre-clamp blended
`score` recorded into `dimension_scores`. -/
structure DimOutcome where
  result : CriterionResult
  score : ℚ
deriving DecidableEq

/-- One iteration of the loop body of `ChiefJustice`
(`src/nodes/judges.py:116-154`); `none` is the `continue` taken when the
dimension has no opinions. -/
def judgeDimension (conflicts : List String) (opinions : List JudicialOpinion)
    (dim : Dimension) : Option DimOutcome :=
  let ops := dimOps opinions dim.id
  if ops.isEmpty then none else
  let p_op := ops.find? (fun o => o.judge == Judge.Prosecutor)
  let d_op := ops.find? (fun o => o.judge == Judge.Defense)
  let t_op := ops.find? (fun o => o.judge == Judge.TechLead)
  let p_score : ℚ := match p_op with | some o => (o.score : ℚ) | none => 1
  let d_score : ℚ := match d_op with | some o => (o.score : ℚ) | none => 1
  let t_score : ℚ := match t_op with | some o => (o.score : ℚ) | none => 1
  let score0 : ℚ := t_score * (2/5) + p_score * (3/10) + d_score * (3/10)
  let dim_conflicts := conflicts.filter
    (fun c => strContains c dim.name || strContains c dim.id)
  let score : ℚ := if dim_conflicts.isEmpty then score0 else score0 - 1
  let dissent : Option String :=
    match p_op, d_op with
    | some p, some d =>
        if 2 < (p.score - d.score).natAbs then some (dissentMsg p d) else none
    | _, _ => none
  some
    { result :=
        { dimension_id := dim.id
          dimension_name := dim.name
          final_score := pyInt (max 1 (min 5 score))
          judge_opinions := ops
          dissent_summary := dissent
          remediation :=
            match t_op with
            | some t => t.argument
            | none => "Follow success pattern." }
      score := score }

/-- Python dict assignment `m[k] = v`: replace in place if present,
append otherwise (used for `dimension_scores[dim_id] = score`). -/
def dictSet (m : List (String × ℚ)) (k : String) (v : ℚ) : List (String × ℚ) :=
  if m.any (fun kv => kv.1 == k) then
    m.map (fun kv => if kv.1 == k then (kv.1, v) else kv)
  else m ++ [(k, v)]

/-- The slice of `AgentState` consumed by `ChiefJustice`
(`synthesis_rules` is read but never used by the function body). -/
structure CJState where
  repo_url : String
  rubric_dimensions : List Dimension
  opinions : List JudicialOpinion
  conflict_log : List String
  synthesis_rules : List (String × String) := []
deriving DecidableEq

/-- One step of the `ChiefJustice` loop on the accumulated
`(criteria_results, dimension_scores)` pair. -/
def cjStep (conflicts : List String) (opinions : List JudicialOpinion)
    (acc : List CriterionResult × List (String × ℚ)) (dim : Dimension) :
    List CriterionResult × List (String × ℚ) :=
  match judgeDimension conflicts opinions dim with
  | none => acc
  | some oc => (acc.1 ++ [oc.result], dictSet acc.2 dim.id oc.score)

/-- The fold of the `ChiefJustice` loop: accumulates `criteria_results`
and the `dimension_scores` dict, in rubric order. -/
def cjFold (conflicts : List String) (opinions : List JudicialOpinion)
    (dims : List Dimension) : List CriterionResult × List (String × ℚ) :=
  dims.foldl (cjStep conflicts opinions) ([], [])

/-- The security tag test of `judges.py:159`: a conflict entry counts as
safety/security-tagged when its free text contains `"Safe"` or
`"Security"` (the implicit taxonomy the source uses). -/
def securityTagged (c : String) : Bool :=
  strContains c "Safe" || strContains c "Security"

/-- The `ChiefJustice` (`src/nodes/judges.py:103-171`): blends opinions,
applies the fact-supremacy penalty, the security override, and emits the
final `AuditReport`. -/
def chiefJustice (st : CJState) : AuditReport :=
  let conflicts := st.conflict_log
  let folded := cjFold conflicts st.opinions st.rubric_dimensions
  let criteria_results := folded.1
  let dimension_scores := folded.2
  let overall0 : ℚ :=
    if dimension_scores.isEmpty then 0
    else (dimension_scores.map (fun kv => kv.2)).sum / (dimension_scores.length : ℚ)
  let security_flaws := conflicts.filter securityTagged
  let overall_score := if security_flaws.isEmpty then overall0 else min 3 overall0
  { repo_url := st.repo_url
    executive_summary :=
      "Forensic audit complete with " ++ toString conflicts.length ++
        " detected conflicts."
    overall_score := overall_score
    criteria := criteria_results
    remediation_plan :=
      "Resolve security overrides and align report claims with AST truth." }

/-! ## Task graph construction (`create_graph` in `src/graph.py`) -/

/-- The langgraph `START` sentinel. -/
def startSentinel : String := "__start__"

/-- The langgraph `END` sentinel. -/
def endSentinel : String := "__end__"

/-- The `StateGraph` builder surface used by `create_graph`:
registered node names and directed edges. -/
structure StateGraphBuilder where
  nodes : List String
  edges : List (String × String)
deriving DecidableEq

/-- The `builder.add_node(name, fn)` (the function value is irrelevant to the
topology). -/
def addNode (b : StateGraphBuilder) (name : String) : StateGraphBuilder :=
  { b with nodes := b.nodes ++ [name] }

/-- The `builder.add_edge(src, dst)`. -/
def addEdge (b : StateGraphBuilder) (src dst : String) : StateGraphBuilder :=
  { b with edges := b.edges ++ [(src, dst)] }

/-- The `create_graph` (`src/graph.py:190-214`): the exact sequence of
`add_node`/`add_edge` calls, `compile()` returning the built topology. -/
def create_graph : StateGraphBuilder :=
  let b : StateGraphBuilder := { nodes := [], edges := [] }
  let b := addNode b "repo_investigator"
  let b := addNode b "doc_analyst"
  let b := addNode b "vision_inspector"
  let b := addNode b "evidence_aggregator"
  let b := addEdge b startSentinel "repo_investigator"
  let b := addEdge b startSentinel "doc_analyst"
  let b := addEdge b startSentinel "vision_inspector"
  let b := addEdge b "repo_investigator" "evidence_aggregator"
  let b := addEdge b "doc_analyst" "evidence_aggregator"
  let b := addEdge b "vision_inspector" "evidence_aggregator"
  let b := addEdge b "evidence_aggregator" endSentinel
  b

/-- Successor names of a node in the compiled topology. -/
def successors (b : StateGraphBuilder) (node : String) : List String :=
  (b.edges.filter (fun e => e.1 == node)).map (fun e => e.2)

/-! ## Evidence arbitration (`evidence_aggregator` in `src/graph.py`) -/

/-- The `state["evidences"]` is a dict from category name to evidence list;
modelled as an association list with pairwise-distinct keys. -/
def Evidences : Type := List (String × List Evidence)

instance : DecidableEq Evidences := by unfold Evidences; infer_instance

/-- Python `state["evidences"].get(k, [])`. -/
def getEvidences (evs : Evidences) (k : String) : List Evidence :=
  match evs.find? (fun kv => kv.1 == k) with
  | some kv => kv.2
  | none => []

/-- The `expected_keys = {"repo", "doc", "vision"}` (`src/graph.py:149`). -/
def expectedKeys : List String := ["repo", "doc", "vision"]

/-- The completeness-audit message appended at `src/graph.py:157`
(Python renders the missing-key set inside an f-string; the rendering of
the set is modelled as a comma-separated list). -/
def incompleteMsg (missing : List String) : String :=
  "Incomplete Evidence: Missing forensic dimensions: " ++
    String.intercalate ", " missing

/-- The High-severity conflict string appended at `src/graph.py:173`. -/
def highMismatchMsg : String :=
  "High Severity Structural Mismatch: PDF claims complex architecture but AST shows no StateGraph."

/-- The Critical conflict string appended at `src/graph.py:178`. -/
def criticalMismatchMsg : String :=
  "CRITICAL: Holistic Mismatch - Multi-artifact hallucination detected (Doc & Vision claim graph, AST denies)."

/-- The `ast_parallel = next((e for e in repo_ev if e.goal == "Verify Graph
Parallelism"), None)` (`src/graph.py:167`). -/
def astParallelOf (evidences : Evidences) : Option Evidence :=
  (getEvidences evidences "repo").find?
    (fun e => e.goal == "Verify Graph Parallelism")

/-- The `doc_claim = next((e for e in doc_ev if e.goal == "Verify
Metacognitive Claims"), None)` (`src/graph.py:168`). -/
def docClaimOf (evidences : Evidences) : Option Evidence :=
  (getEvidences evidences "doc").find?
    (fun e => e.goal == "Verify Metacognitive Claims")

/-- The `vision_claim = next((e for e in vision_ev if e.goal == "Verify
Architectural Diagram"), None)` (`src/graph.py:176`). -/
def visionClaimOf (evidences : Evidences) : Option Evidence :=
  (getEvidences evidences "vision").find?
    (fun e => e.goal == "Verify Architectural Diagram")

/-- The `evidence_aggregator` (`src/graph.py:142-186`): the fan-in
arbitration node; consumes `state["evidences"]` and returns the
`conflict_log` delta. -/
def evidence_aggregator (evidences : Evidences) : List String :=
  let actual_keys := evidences.map (fun kv => kv.1)
  let missing := expectedKeys.filter (fun k => !(actual_keys.contains k))
  let c1 := if missing.isEmpty then [] else [incompleteMsg missing]
  let ast_parallel := astParallelOf evidences
  let doc_claim := docClaimOf evidences
  let vision_claim := visionClaimOf evidences
  let c2 :=
    match ast_parallel, doc_claim with
    | some a, some d => if !a.found && d.found then [highMismatchMsg] else []
    | _, _ => []
  let c3 :=
    match ast_parallel, doc_claim, vision_claim with
    | some a, some d, some v =>
        if !a.found && d.found && v.found then [criticalMismatchMsg] else []
    | _, _, _ => []
  c1 ++ c2 ++ c3

/-! ## The `operator.ior` reducer on `evidences` (`src/state.py:86-88`)

`evidences: Annotated[Dict[str, List[Evidence]], operator.ior]` — branch
deltas are Python dicts merged key-wise with `|=` (later writes of the
same key overwrite).  Dicts are modelled as association lists whose keys
are distinct. -/

/-- Python `m[k] = v` on a dict: replace the entry in place when the key
exists, append otherwise. -/
def insertIor {α : Type} (m : List (String × α)) (k : String) (v : α) :
    List (String × α) :=
  if m.any (fun kv => kv.1 == k) then
    m.map (fun kv => if kv.1 == k then (kv.1, v) else kv)
  else m ++ [(k, v)]

/-- The `operator.ior` on dicts: `a |= b` inserts every entry of `b` into `a`
in order. -/
def iorDict {α : Type} (a b : List (String × α)) : List (String × α) :=
  b.foldl (fun m kv => insertIor m kv.1 kv.2) a

/-- The scheduler's reducer application over a sequence of completing
branch deltas, starting from the empty map. -/
def mergeAll {α : Type} (ds : List (List (String × α))) : List (String × α) :=
  ds.foldl iorDict []

/-- Dict lookup, `m.get(k)`. -/
def lookupD {α : Type} (m : List (String × α)) (k : String) : Option α :=
  (m.find? (fun kv => kv.1 == k)).map (fun kv => kv.2)

/-- The key set of a dict. -/
def keysOf {α : Type} (m : List (String × α)) : List String :=
  m.map (fun kv => kv.1)

/-! ## Structural verifier (`RepoTools.analyze_graph_structure`,
`src/tools/repo_tools.py:35-102`)

The Python `ast` fragment that `GraphVisitor` inspects.  Assignment
targets are modelled by `some id` when `targets[0]` is an `ast.Name` and
`none` otherwise; `constant v` carries `str(node.value)`. -/

inductive PyNode where
  /-- The `ast.Assign` with the (optional) name of `targets[0]` and its value. -/
  | assign (target : Option String) (value : PyNode) : PyNode
  /-- The `ast.Call` whose `func` is an `ast.Name`. -/
  | callName (fn : String) (args : List PyNode) : PyNode
  /-- The `ast.Call` whose `func` is an `ast.Attribute` with object `obj`. -/
  | callAttr (obj : PyNode) (attr : String) (args : List PyNode) : PyNode
  /-- The `ast.Call` with any other `func` shape. -/
  | callOther (args : List PyNode) : PyNode
  /-- The `ast.Constant`, carrying `str(node.value)`. -/
  | constant (v : String) : PyNode
  /-- The `ast.Name`. -/
  | name (id : String) : PyNode
  /-- Any other node, visited generically. -/
  | other (children : List PyNode) : PyNode

/-- The `GraphForensics` (pydantic model in `src/tools/repo_tools.py`). -/
structure GraphForensics where
  state_graph_instance_found : Bool := false
  graph_variable_name : Option String := none
  edges : List (String × String) := []
  fan_out_count : Nat := 0
  fan_in_count : Nat := 0
  conditional_edges_count : Nat := 0
  is_compiled : Bool := false
  compiled_on_correct_instance : Bool := false
deriving DecidableEq

/-- The visitor's mutable closure: the forensics record under
construction plus the local `adjacency_map` (insertion-ordered dict). -/
structure VState where
  f : GraphForensics := {}
  adj : List (String × List String) := []
deriving DecidableEq

/-- The `getattr(node.value.func, "id", None) == "StateGraph"` guard of
`visit_Assign`: the assigned value is a call of the bare name
`StateGraph`. -/
def isStateGraphCall : PyNode → Bool
  | .callName fn _ => fn == "StateGraph"
  | _ => false

/-- The `_get_val`: a literal constant or an identifier, else `None`. -/
def getVal : PyNode → Option String
  | .constant v => some v
  | .name id => some id
  | _ => none

/-- The `adjacency_map.setdefault(src, []).append(dst)`. -/
def adjAppend (adj : List (String × List String)) (src dst : String) :
    List (String × List String) :=
  if adj.any (fun kv => kv.1 == src) then
    adj.map (fun kv => if kv.1 == src then (kv.1, kv.2 ++ [dst]) else kv)
  else adj ++ [(src, [dst])]

/-- The side effect of `visit_Assign` (`repo_tools.py:49-56`) before its
`generic_visit`. -/
def assignEffect (s : VState) (target : Option String) (value : PyNode) : VState :=
  if isStateGraphCall value then
    { s with
      f := { s.f with
        state_graph_instance_found := true
        graph_variable_name :=
          match target with
          | some t => some t
          | none => s.f.graph_variable_name } }
  else s

/-- The side effect of `visit_Call` (`repo_tools.py:58-79`) for a call
whose `func` is an attribute access, before its `generic_visit`. -/
def callAttrEffect (s : VState) (obj : PyNode) (attr : String)
    (args : List PyNode) : VState :=
  if attr == "add_edge" then
    match args with
    | a0 :: a1 :: _ =>
        match getVal a0, getVal a1 with
        | some src, some dst =>
            if src != "" && dst != "" then
              { s with
                f := { s.f with edges := s.f.edges ++ [(src, dst)] }
                adj := adjAppend s.adj src dst }
            else s
        | _, _ => s
    | _ => s
  else if attr == "add_conditional_edges" then
    { s with
      f := { s.f with conditional_edges_count := s.f.conditional_edges_count + 1 } }
  else if attr == "compile" then
    { s with
      f := { s.f with
        is_compiled := true
        compiled_on_correct_instance :=
          s.f.compiled_on_correct_instance ||
            (match obj with
             | .name id => s.f.graph_variable_name == some id
             | _ => false) } }
  else s

mutual

/-- The `GraphVisitor.visit` on one node: apply the node's side effect, then
`generic_visit` its children in document order. -/
def visitNode (s : VState) : PyNode → VState
  | .assign target value => visitNode (assignEffect s target value) value
  | .callName _ args => visitArgs s args
  | .callAttr obj attr args =>
      visitArgs (visitNode (callAttrEffect s obj attr args) obj) args
  | .callOther args => visitArgs s args
  | .constant _ => s
  | .name _ => s
  | .other children => visitArgs s children

/-- The `generic_visit` over a list of child nodes. -/
def visitArgs (s : VState) : List PyNode → VState
  | [] => s
  | n :: rest => visitArgs (visitNode s n) rest

end

/-- The `dest_counts[dst] = dest_counts.get(dst, 0) + 1`. -/
def bumpCount (m : List (String × Nat)) (d : String) : List (String × Nat) :=
  if m.any (fun kv => kv.1 == d) then
    m.map (fun kv => if kv.1 == d then (kv.1, kv.2 + 1) else kv)
  else m ++ [(d, 1)]

/-- The `RepoTools.analyze_graph_structure`: `none` input stands for the open
or `ast.parse` failure caught at `repo_tools.py:40-44` (returning the
zero-value record); `some body` is the parsed module body.  The function
is total — the embedded rendering of "never raises". -/
def analyze_graph_structure (input : Option (List PyNode)) : GraphForensics :=
  match input with
  | none => {}
  | some body =>
      let s := visitArgs {} body
      let fan_out :=
        match s.adj.find? (fun kv => kv.1 == "START") with
        | some kv => kv.2.length
        | none => 0
      let dests := (s.adj.map (fun kv => kv.2)).flatten
      let dest_counts := dests.foldl bumpCount []
      let fan_in := (dest_counts.map (fun kv => kv.2)).foldl max 0
      { s.f with fan_out_count := fan_out, fan_in_count := fan_in }

mutual

/-- Whether a node (or any of its descendants) is an assignment of a
`StateGraph(...)` call — the builder-instantiation pattern that
`visit_Assign` detects. -/
def hasSGNode : PyNode → Bool
  | .assign _ value => isStateGraphCall value || hasSGNode value
  | .callName _ args => hasSGList args
  | .callAttr obj _ args => hasSGNode obj || hasSGList args
  | .callOther args => hasSGList args
  | .constant _ => false
  | .name _ => false
  | .other children => hasSGList children

/-- The `hasSGNode` over a list of nodes. -/
def hasSGList : List PyNode → Bool
  | [] => false
  | n :: rest => hasSGNode n || hasSGList rest

end

/-! ## Auxiliary definitions used by the theorems -/

/-- One step of scanning deltas for key `k`: a delta holding `k`
supersedes whatever was seen before. -/
def hitStep {α : Type} (k : String) (acc : Option α)
    (d : List (String × α)) : Option α :=
  match lookupD d k with
  | some v => some v
  | none => acc

/-- The last delta of a sequence that carries key `k`, and its value —
the entry that survives a left fold of `operator.ior` merges. -/
def lastHit {α : Type} (ds : List (List (String × α))) (k : String) : Option α :=
  ds.foldl (hitStep k) none

/-- The per-role score that `ChiefJustice` feeds into the weighted blend:
the role's opinion score when the role filed one for the dimension, and
the default `1` otherwise (`judges.py:127-129`). -/
def roleScore (ops : List JudicialOpinion) (j : Judge) : ℚ :=
  match ops.find? (fun o => o.judge == j) with
  | some o => (o.score : ℚ)
  | none => 1

/-- Modelled from the spec (§4.5 step 1, claim C1): the blend that
"applies the fixed role weights **only to roles present** for that
dimension; absent roles contribute nothing".  Stated here solely to be
compared against the code's blend. -/
def specPresentOnlyBlend (opinions : List JudicialOpinion) (dim : Dimension) : ℚ :=
  let ops := dimOps opinions dim.id
  (match ops.find? (fun o => o.judge == Judge.TechLead) with
   | some o => (o.score : ℚ) * (2/5) | none => 0) +
  (match ops.find? (fun o => o.judge == Judge.Prosecutor) with
   | some o => (o.score : ℚ) * (3/10) | none => 0) +
  (match ops.find? (fun o => o.judge == Judge.Defense) with
   | some o => (o.score : ℚ) * (3/10) | none => 0)

/-- The pre-clamp blended (post-penalty) score of every dimension that
received at least one opinion, in rubric order. -/
def preClampScores (st : CJState) : List ℚ :=
  (st.rubric_dimensions.filterMap
    (judgeDimension st.conflict_log st.opinions)).map DimOutcome.score

/-- Modelled from the spec (§4.4, claim C5): the number of independent
lower-authority sources that corroborate the architecture claim — the
document channel and the vision channel each count one when their
matched claim item asserts `found=true`. -/
def specCorroboratingCount (evidences : Evidences) : Nat :=
  (match (getEvidences evidences "doc").find?
      (fun e => e.goal == "Verify Metacognitive Claims") with
   | some d => if d.found then 1 else 0
   | none => 0) +
  (match (getEvidences evidences "vision").find?
      (fun e => e.goal == "Verify Architectural Diagram") with
   | some v => if v.found then 1 else 0
   | none => 0)

/-! ### Concrete inputs used by counterexamples and witnesses -/

/-- A rubric dimension used in concrete instances. -/
def dimGraph : Dimension := { id := "dim1", name := "Graph Orchestration" }

/-- A lone TechLead opinion of score 5 for `dimGraph`. -/
def opT5 : JudicialOpinion :=
  { judge := Judge.TechLead, criterion_id := "dim1", score := 5
    argument := "solid", cited_evidence := [] }

/-- A document-channel evidence item asserting the monitored claim. -/
def docEvFound : Evidence :=
  { goal := "Verify Metacognitive Claims", found := true
    location := "report.pdf:p2", rationale := "Found match on page 2."
    confidence := 8/10 }

/-- A structural (repo) evidence item denying the monitored claim. -/
def astEvDenied : Evidence :=
  { goal := "Verify Graph Parallelism", found := false
    location := "src/graph.py", rationale := "AST found 0 edges. Fan-out: 0."
    confidence := 0 }

/-- A vision-channel evidence item corroborating the claim. -/
def visEvFound : Evidence :=
  { goal := "Verify Architectural Diagram", found := true
    location := "report.pdf:img1", rationale := "Type: LangGraph."
    confidence := 8/10 }

/-- Claim C4's situation: the document channel asserts the claim while
the repo channel is present but holds no structural item at all. -/
def c4Evidences : Evidences :=
  [("repo", []), ("doc", [docEvFound]), ("vision", [])]

/-- Claim C5's situation: the structural source denies the claim and
exactly the two lower-authority sources (doc, vision) corroborate it. -/
def c5Evidences : Evidences :=
  [("repo", [astEvDenied]), ("doc", [docEvFound]), ("vision", [visEvFound])]

/-- A source with no builder instantiation that still calls
`x.add_edge("a", "b")`. -/
def noBuilderEdgeBody : List PyNode :=
  [.callAttr (.name "x") "add_edge" [.constant "a", .constant "b"]]

/-- A source that instantiates the builder, adds two `START` edges and
calls `compile()` on the same identifier — but with the `compile()` call
textually before the instantiation. -/
def compileFirstBody : List PyNode :=
  [ .callAttr (.name "builder") "compile" []
  , .assign (some "builder") (.callName "StateGraph" [.name "dict"])
  , .callAttr (.name "builder") "add_edge" [.name "START", .constant "a"]
  , .callAttr (.name "builder") "add_edge" [.name "START", .constant "b"] ]

/-- The canonical positive source: `b = StateGraph(dict)`, two edges from
`START` to `n1` and `n2`, then `b.compile()`. -/
def posModule (b n1 n2 : String) : List PyNode :=
  [ .assign (some b) (.callName "StateGraph" [.name "dict"])
  , .callAttr (.name b) "add_edge" [.name "START", .constant n1]
  , .callAttr (.name b) "add_edge" [.name "START", .constant n2]
  , .callAttr (.name b) "compile" [] ]

/-- The same source but with `compile()` invoked on a different
identifier `c` than the builder binding `b`. -/
def wrongCompileModule (b c n1 n2 : String) : List PyNode :=
  [ .assign (some b) (.callName "StateGraph" [.name "dict"])
  , .callAttr (.name b) "add_edge" [.name "START", .constant n1]
  , .callAttr (.name b) "add_edge" [.name "START", .constant n2]
  , .callAttr (.name c) "compile" [] ]

/-- A conflict entry whose free text mentions `dimGraph`'s name. -/
def c3Conflicts : List String :=
  ["Fact-Check Failure mentioning Graph Orchestration"]

/-- The unit tests' negative source, `print('hello world')`: no builder
instantiation at all. -/
def printBody : List PyNode :=
  [.callName "print" [.constant "hello world"]]

/-- A state whose rubric has one dimension but whose opinion list is
empty (no dimension receives an opinion), with a security-tagged
conflict present. -/
def c10State : CJState :=
  { repo_url := "https://example.org/repo.git"
    rubric_dimensions := [dimGraph]
    opinions := []
    conflict_log := ["Security flaw detected"] }

/-- An opinion of the given judge with score 5 for criterion `cid`. -/
def op5 (j : Judge) (cid : String) : JudicialOpinion :=
  { judge := j, criterion_id := cid, score := 5
    argument := "fine", cited_evidence := [] }

/-- A state with two dimensions, all three roles scoring 5 on each
(unconstrained mean 5 > 3), and one security-tagged conflict whose text
mentions neither dimension. -/
def c6State : CJState :=
  { repo_url := "https://example.org/repo.git"
    rubric_dimensions := [{ id := "A", name := "Alpha" }, { id := "B", name := "Beta" }]
    opinions :=
      [op5 Judge.Prosecutor "A", op5 Judge.Defense "A", op5 Judge.TechLead "A",
       op5 Judge.Prosecutor "B", op5 Judge.Defense "B", op5 Judge.TechLead "B"]
    conflict_log := ["Security flaw detected"] }

/-! ## Helper lemmas -/

theorem incompleteMsg_head (m : List String) :
    (incompleteMsg m).data.head? = some 'I' := rfl

theorem incompleteMsg_ne_high (m : List String) :
    incompleteMsg m ≠ highMismatchMsg := by
  intro h
  have h1 := incompleteMsg_head m
  rw [h] at h1
  exact absurd h1 (by decide)

theorem incompleteMsg_ne_critical (m : List String) :
    incompleteMsg m ≠ criticalMismatchMsg := by
  intro h
  have h1 := incompleteMsg_head m
  rw [h] at h1
  exact absurd h1 (by decide)

theorem critical_not_mem_completeness (b : Bool) (m : List String) :
    criticalMismatchMsg ∉ (if b then ([] : List String) else [incompleteMsg m]) := by
  cases b
  · simp only [Bool.false_eq_true, if_false, List.mem_singleton]
    exact fun h => incompleteMsg_ne_critical m h.symm
  · simp

theorem high_not_mem_completeness (b : Bool) (m : List String) :
    highMismatchMsg ∉ (if b then ([] : List String) else [incompleteMsg m]) := by
  cases b
  · simp only [Bool.false_eq_true, if_false, List.mem_singleton]
    exact fun h => incompleteMsg_ne_high m h.symm
  · simp

/-! ## Claim C2 -/

/-- C2: **code_bug evidence.**  In the compiled task graph the only
successor of the arbitration barrier `evidence_aggregator` is the `END`
sentinel, and the graph's node set contains no judge-type node and no
synthesis node at all — the run terminates directly after arbitration,
contradicting the specified fan-out of judges followed by a synthesis
barrier (the judge layer exists in `src/nodes/judges.py` but is never
wired into `create_graph`). -/
theorem C2_graph_ends_after_arbitration :
    successors create_graph "evidence_aggregator" = [endSentinel] ∧
    create_graph.nodes =
      ["repo_investigator", "doc_analyst", "vision_inspector",
       "evidence_aggregator"] := by
  decide

/-! ## Claim C4 -/

/-- C4: **counterexample.**  A state in which the document channel
asserts the monitored claim (`found=true`) while the structural channel
is present but holds *no* matching ground-truth item: the claim demands a
High-severity conflict, yet the aggregator returns an empty conflict
delta. -/
theorem C4_absent_ground_truth_no_conflict :
    astParallelOf c4Evidences = none ∧
    (docClaimOf c4Evidences).map Evidence.found = some true ∧
    evidence_aggregator c4Evidences = [] := by
  decide

/-- C4 (amended): the High-severity fact-check conflict is emitted when
the ground-truth structural item is *present* and asserts `found=false`
while the document channel asserts `found=true`; when the structural
item is absent entirely, no such conflict is produced (see the
counterexample). -/
theorem C4_high_conflict_when_ast_denies (evs : Evidences) (a d : Evidence)
    (ha : astParallelOf evs = some a) (haf : a.found = false)
    (hd : docClaimOf evs = some d) (hdf : d.found = true) :
    highMismatchMsg ∈ evidence_aggregator evs := by
  unfold evidence_aggregator
  simp only [ha, hd, haf, hdf]
  cases hv : visionClaimOf evs <;> simp [hv]

/-- C4 witness: the amended theorem applied to the concrete state in
which the structural item is present and denies the claim. -/
theorem C4_high_conflict_witness :
    highMismatchMsg ∈ evidence_aggregator c5Evidences :=
  C4_high_conflict_when_ast_denies c5Evidences astEvDenied docEvFound
    rfl rfl rfl rfl

/-! ## Claim C5 -/

/-- C5: **counterexample.**  The Critical "holistic mismatch" conflict is
emitted in a state where only *two* independent lower-authority sources
(doc and vision) corroborate the claim the structural source denies —
the claim requires three or more corroborating sources for the
escalation (and with only three evidence channels, two of them
non-structural, three corroborating sources are impossible). -/
theorem C5_critical_with_two_sources :
    specCorroboratingCount c5Evidences = 2 ∧
    criticalMismatchMsg ∈ evidence_aggregator c5Evidences := by
  decide

/-- C5 (amended): the aggregator escalates to the Critical "holistic
mismatch" conflict exactly when the structural item is present and
denies the claim while **both** lower-authority sources (doc and vision
— two corroborating sources, not three) assert it. -/
theorem C5_critical_iff_doc_and_vision (evs : Evidences) :
    criticalMismatchMsg ∈ evidence_aggregator evs ↔
      ((astParallelOf evs).map Evidence.found = some false ∧
       (docClaimOf evs).map Evidence.found = some true ∧
       (visionClaimOf evs).map Evidence.found = some true) := by
  have hne1 : ∀ m, criticalMismatchMsg ≠ incompleteMsg m :=
    fun m h => incompleteMsg_ne_critical m h.symm
  have hne2 : criticalMismatchMsg ≠ highMismatchMsg := by decide
  constructor
  · intro hmem
    unfold evidence_aggregator at hmem
    rcases List.mem_append.1 hmem with h12 | h3
    · exfalso
      rcases List.mem_append.1 h12 with h1 | h2
      · revert h1
        split
        · simp
        · simp only [List.mem_singleton]
          exact fun h => hne1 _ h
      · revert h2
        split
        · split
          · simp only [List.mem_singleton]
            exact fun h => hne2 h
          · simp
        · simp
    · revert h3
      split
      · split
        · intro _
          simp_all
        · simp
      · simp
  · rintro ⟨hA, hD, hV⟩
    obtain ⟨a, ha, haf⟩ : ∃ a, astParallelOf evs = some a ∧ a.found = false := by
      cases h : astParallelOf evs with
      | none => rw [h] at hA; cases hA
      | some a => rw [h] at hA; exact ⟨a, rfl, by simpa using hA⟩
    obtain ⟨d, hd, hdf⟩ : ∃ d, docClaimOf evs = some d ∧ d.found = true := by
      cases h : docClaimOf evs with
      | none => rw [h] at hD; cases hD
      | some d => rw [h] at hD; exact ⟨d, rfl, by simpa using hD⟩
    obtain ⟨v, hv, hvf⟩ : ∃ v, visionClaimOf evs = some v ∧ v.found = true := by
      cases h : visionClaimOf evs with
      | none => rw [h] at hV; cases hV
      | some v => rw [h] at hV; exact ⟨v, rfl, by simpa using hV⟩
    unfold evidence_aggregator
    simp [ha, hd, hv, haf, hdf, hvf, List.mem_append]

/-- C5 witness: the amended characterization evaluated at the concrete
two-corroborator state. -/
theorem C5_critical_iff_witness :
    criticalMismatchMsg ∈ evidence_aggregator c5Evidences :=
  (C5_critical_iff_doc_and_vision c5Evidences).mpr ⟨rfl, rfl, rfl⟩

/-! ## Claim C1 -/

/-- C1: **counterexample.**  For a dimension whose only opinion is a
TechLead score of 5, the code's blended score is
`5*0.4 + 1*0.3 + 1*0.3 = 2.6` — the absent Prosecutor and Defense roles
each contribute their weight times a default score of 1 — whereas a
blend in which absent roles contribute nothing would give `2.0`. -/
theorem C1_absent_roles_contribute_default :
    (judgeDimension [] [opT5] dimGraph).map DimOutcome.score = some (13/5) ∧
    specPresentOnlyBlend [opT5] dimGraph = 2 ∧
    (13/5 : ℚ) ≠ 2 := by
  refine ⟨?_, ?_, by norm_num⟩
  · norm_num +decide [judgeDimension, dimOps, opT5, dimGraph]
  · norm_num +decide [specPresentOnlyBlend, dimOps, opT5, dimGraph]

/-- C1 (amended): the blend applies the fixed weights
(TechLead 0.4, Prosecutor 0.3, Defense 0.3) to all three roles, an
absent role entering with the default score 1 (not contributing
nothing); since the default is a constant, the dimension's outcome still
depends only on the opinion set filed for that dimension, so changing or
removing opinions outside that set never changes the result. -/
theorem C1_blend_defaults_and_independence
    (opinions : List JudicialOpinion) (dim : Dimension)
    (h : dimOps opinions dim.id ≠ []) :
    ((judgeDimension [] opinions dim).map DimOutcome.score =
      some (roleScore (dimOps opinions dim.id) Judge.TechLead * (2/5) +
            roleScore (dimOps opinions dim.id) Judge.Prosecutor * (3/10) +
            roleScore (dimOps opinions dim.id) Judge.Defense * (3/10)) ∧
     ∀ opinions', dimOps opinions' dim.id = dimOps opinions dim.id →
       judgeDimension [] opinions' dim = judgeDimension [] opinions dim) := by
  have hne : (dimOps opinions dim.id).isEmpty = false := by
    cases hh : dimOps opinions dim.id with
    | nil => exact absurd hh h
    | cons a l => rfl
  constructor
  · simp only [judgeDimension, hne, Bool.false_eq_true, if_false,
      List.filter_nil, List.isEmpty_nil, if_true]
    rfl
  · intro opinions' h'
    unfold judgeDimension
    rw [h']

/-- C1 witness: the amended blend equation at the concrete one-opinion
input. -/
theorem C1_blend_witness :
    (judgeDimension [] [opT5] dimGraph).map DimOutcome.score =
      some (roleScore (dimOps [opT5] dimGraph.id) Judge.TechLead * (2/5) +
            roleScore (dimOps [opT5] dimGraph.id) Judge.Prosecutor * (3/10) +
            roleScore (dimOps [opT5] dimGraph.id) Judge.Defense * (3/10)) :=
  (C1_blend_defaults_and_independence [opT5] dimGraph (by decide)).1

/-! ## Claim C3 -/

/-- C3: **counterexample.**  At the one-TechLead-opinion input the
blended (pre-clamp, post-penalty) score is 2.6; the code emits
`int(max(1, min(5, 2.6))) = 2`, while the claimed
`round(max(1, min(5, 2.6))) = 3`. -/
theorem C3_final_score_truncates_not_rounds :
    (judgeDimension [] [opT5] dimGraph).map DimOutcome.score = some (13/5) ∧
    (judgeDimension [] [opT5] dimGraph).map (fun oc => oc.result.final_score) =
      some 2 ∧
    pyRound (max 1 (min 5 ((13 : ℚ)/5))) = 3 ∧
    (2 : ℤ) ≠ 3 := by
  refine ⟨?_, ?_, ?_, by decide⟩
  · norm_num +decide [judgeDimension, dimOps, opT5, dimGraph]
  · norm_num +decide [judgeDimension, dimOps, opT5, dimGraph, pyInt]
  · have h : Int.fdiv 13 5 = 2 := by decide
    norm_num [pyRound, h]

/-- C3 (amended): for every dimension with at least one opinion the
emitted final score is the **truncation** (Python `int(...)`, i.e.
floor on the clamped, ≥ 1 value) of `max(1, min(5, blendedScore))` — not
`round(...)` — where `blendedScore` is the weighted blend after the
fact-supremacy penalty: a pre-clamp subtraction of exactly 1.0 when the
conflict log references the dimension by name or id. -/
theorem C3_truncated_clamp_after_penalty
    (conflicts : List String) (opinions : List JudicialOpinion)
    (dim : Dimension) (h : dimOps opinions dim.id ≠ []) :
    ((judgeDimension conflicts opinions dim).map DimOutcome.score =
      (judgeDimension [] opinions dim).map
        (fun oc0 => oc0.score -
          (if (conflicts.filter
              (fun c => strContains c dim.name || strContains c dim.id)).isEmpty
           then 0 else 1)) ∧
     (judgeDimension conflicts opinions dim).map
        (fun oc => oc.result.final_score) =
      (judgeDimension conflicts opinions dim).map
        (fun oc => pyInt (max 1 (min 5 oc.score)))) := by
  have hne : (dimOps opinions dim.id).isEmpty = false := by
    cases hh : dimOps opinions dim.id with
    | nil => exact absurd hh h
    | cons a l => rfl
  constructor
  · simp [judgeDimension, hne]
    split <;> ring_nf
  · cases hj : judgeDimension conflicts opinions dim with
    | none => rfl
    | some oc =>
        simp only [judgeDimension, hne, Bool.false_eq_true, if_false] at hj
        obtain rfl := (Option.some.inj hj).symm
        rfl

/-- C3 witness: the amended statement at a concrete input whose conflict
log references the dimension by name. -/
theorem C3_truncated_clamp_witness :
    dimOps [opT5] dimGraph.id ≠ [] ∧
    ((judgeDimension c3Conflicts [opT5] dimGraph).map DimOutcome.score =
      (judgeDimension [] [opT5] dimGraph).map
        (fun oc0 => oc0.score -
          (if (c3Conflicts.filter
              (fun c => strContains c dimGraph.name || strContains c dimGraph.id)).isEmpty
           then 0 else 1)) ∧
     (judgeDimension c3Conflicts [opT5] dimGraph).map
        (fun oc => oc.result.final_score) =
      (judgeDimension c3Conflicts [opT5] dimGraph).map
        (fun oc => pyInt (max 1 (min 5 oc.score)))) :=
  ⟨by decide,
   C3_truncated_clamp_after_penalty c3Conflicts [opT5] dimGraph (by decide)⟩

/-! ## Claim C10 -/

theorem judgeDimension_none (conflicts : List String)
    (opinions : List JudicialOpinion) (dim : Dimension)
    (h : dimOps opinions dim.id = []) :
    judgeDimension conflicts opinions dim = none := by
  simp [judgeDimension, h]

theorem foldl_cjStep_id (conflicts : List String)
    (opinions : List JudicialOpinion) :
    ∀ (dims : List Dimension) (acc : List CriterionResult × List (String × ℚ)),
      (∀ dim ∈ dims, judgeDimension conflicts opinions dim = none) →
      dims.foldl (cjStep conflicts opinions) acc = acc := by
  intro dims
  induction dims with
  | nil => intro acc _; rfl
  | cons d rest ih =>
      intro acc h
      have hd := h d (List.mem_cons_self d rest)
      have hstep : cjStep conflicts opinions acc d = acc := by
        simp [cjStep, hd]
      simpa [List.foldl_cons, hstep] using
        ih acc (fun dim hm => h dim (List.mem_cons_of_mem d hm))

/-- C10: when no rubric dimension has any matching opinion,
`ChiefJustice` still returns a report: its criteria list is empty and
its overall score is 0 (outside the 1–5 per-dimension scale). -/
theorem C10_empty_opinion_report (st : CJState)
    (h : ∀ dim ∈ st.rubric_dimensions, dimOps st.opinions dim.id = []) :
    (chiefJustice st).criteria = [] ∧ (chiefJustice st).overall_score = 0 := by
  have hfold : cjFold st.conflict_log st.opinions st.rubric_dimensions = ([], []) :=
    foldl_cjStep_id st.conflict_log st.opinions st.rubric_dimensions ([], [])
      (fun dim hm => judgeDimension_none _ _ _ (h dim hm))
  constructor
  · simp [chiefJustice, hfold]
  · simp only [chiefJustice, hfold]
    split <;> norm_num

/-- C10 witness: at the concrete no-opinion state (which also carries a
security-tagged conflict) the report is empty with overall score 0. -/
theorem C10_empty_opinion_witness :
    (chiefJustice c10State).criteria = [] ∧
    (chiefJustice c10State).overall_score = 0 :=
  C10_empty_opinion_report c10State (by decide)

/-! ## Claim C6 -/

theorem filter_isEmpty_eq_not_any {α : Type} (p : α → Bool) (l : List α) :
    (l.filter p).isEmpty = !(l.any p) := by
  induction l with
  | nil => rfl
  | cons a t ih =>
      by_cases h : p a
      · simp [List.filter_cons, List.any_cons, h]
      · simp [List.filter_cons, List.any_cons, h, ih]

theorem dictSet_of_not_mem (m : List (String × ℚ)) (k : String) (v : ℚ)
    (h : k ∉ keysOf m) : dictSet m k v = m ++ [(k, v)] := by
  have hany : m.any (fun kv => kv.1 == k) = false := by
    rw [Bool.eq_false_iff]
    intro hc
    rw [List.any_eq_true] at hc
    obtain ⟨kv, hm, he⟩ := hc
    exact h (by
      rw [beq_iff_eq] at he
      exact he ▸ List.mem_map_of_mem (fun kv => kv.1) hm)
  simp [dictSet, hany]

theorem foldl_cjStep_filterMap (conflicts : List String)
    (opinions : List JudicialOpinion) :
    ∀ (dims : List Dimension) (acc : List CriterionResult × List (String × ℚ)),
      (dims.map Dimension.id).Nodup →
      (∀ dim ∈ dims, dim.id ∉ keysOf acc.2) →
      dims.foldl (cjStep conflicts opinions) acc =
        (acc.1 ++ dims.filterMap
           (fun dim => (judgeDimension conflicts opinions dim).map
             (fun oc => oc.result)),
         acc.2 ++ dims.filterMap
           (fun dim => (judgeDimension conflicts opinions dim).map
             (fun oc => (dim.id, oc.score)))) := by
  intro dims
  induction dims with
  | nil => intro acc _ _; simp
  | cons d rest ih =>
      intro acc hnd hdisj
      have hnd' : (rest.map Dimension.id).Nodup := by
        simpa using (List.nodup_cons.1 (by simpa using hnd)).2
      have hdid : d.id ∉ rest.map Dimension.id :=
        (List.nodup_cons.1 (by simpa using hnd)).1
      cases hjd : judgeDimension conflicts opinions d with
      | none =>
          have hstep : cjStep conflicts opinions acc d = acc := by
            simp [cjStep, hjd]
          have := ih acc hnd'
            (fun dim hm => hdisj dim (List.mem_cons_of_mem d hm))
          simp [List.foldl_cons, hstep, this, List.filterMap_cons, hjd]
      | some oc =>
          have hset : dictSet acc.2 d.id oc.score = acc.2 ++ [(d.id, oc.score)] :=
            dictSet_of_not_mem acc.2 d.id oc.score
              (hdisj d (List.mem_cons_self d rest))
          have hstep : cjStep conflicts opinions acc d =
              (acc.1 ++ [oc.result], acc.2 ++ [(d.id, oc.score)]) := by
            simp [cjStep, hjd, hset]
          have hdisj' : ∀ dim ∈ rest,
              dim.id ∉ keysOf (acc.2 ++ [(d.id, oc.score)]) := by
            intro dim hm hmem
            have keq : keysOf (acc.2 ++ [(d.id, oc.score)]) =
                keysOf acc.2 ++ [d.id] := by
              simp [keysOf]
            rw [keq] at hmem
            rcases List.mem_append.1 hmem with hx | hx
            · exact hdisj dim (List.mem_cons_of_mem d hm) hx
            · have he : dim.id = d.id := by simpa using hx
              exact hdid (he ▸ List.mem_map_of_mem Dimension.id hm)
          have := ih (acc.1 ++ [oc.result], acc.2 ++ [(d.id, oc.score)])
            hnd' hdisj'
          simp only [List.foldl_cons, hstep, this, List.filterMap_cons, hjd,
            Option.map_some]
          simp [List.append_assoc]

/-- C6: whenever the conflict log contains a security-tagged entry
(free text containing `"Safe"` or `"Security"`), the report's overall
score is exactly `min 3 m`, where `m` is the arithmetic mean of all
dimensions' pre-clamp blended (post-penalty) scores; with no such entry
it is exactly `m`. -/
theorem C6_security_override (st : CJState)
    (hnd : (st.rubric_dimensions.map Dimension.id).Nodup)
    (hne : preClampScores st ≠ []) :
    (chiefJustice st).overall_score =
      if st.conflict_log.any securityTagged then
        min 3 ((preClampScores st).sum / ((preClampScores st).length : ℚ))
      else (preClampScores st).sum / ((preClampScores st).length : ℚ) := by
  have hfold := foldl_cjStep_filterMap st.conflict_log st.opinions
    st.rubric_dimensions ([], []) hnd (by simp [keysOf])
  have hscores :
      (cjFold st.conflict_log st.opinions st.rubric_dimensions).2.map
        (fun kv => kv.2) = preClampScores st := by
    rw [cjFold, hfold]
    simp only [List.nil_append, List.map_filterMap, preClampScores]
    congr 1
    funext dim
    cases judgeDimension st.conflict_log st.opinions dim <;> rfl
  have hlen :
      (cjFold st.conflict_log st.opinions st.rubric_dimensions).2.length =
        (preClampScores st).length := by
    rw [← hscores, List.length_map]
  have hnonempty :
      (cjFold st.conflict_log st.opinions st.rubric_dimensions).2.isEmpty = false := by
    cases hc : (cjFold st.conflict_log st.opinions st.rubric_dimensions).2 with
    | nil => exact absurd (by rw [← hscores, hc]; rfl) (Ne.symm (fun he => hne he.symm))
    | cons a l => rfl
  simp only [chiefJustice, hnonempty, Bool.false_eq_true, if_false,
    filter_isEmpty_eq_not_any, hscores, hlen]
  cases hs : st.conflict_log.any securityTagged <;> simp

/-- C6 witness: at the concrete state with unconstrained mean 5 and a
security-tagged conflict, the overall score is capped: min 3 5 = 3. -/
theorem C6_security_override_witness :
    (chiefJustice c6State).overall_score = 3 := by
  have h := C6_security_override c6State (by decide) (by decide)
  rw [h]
  have hany : c6State.conflict_log.any securityTagged = true := by decide
  rw [hany, if_pos rfl]
  have hm : preClampScores c6State = [5, 5] := by
    norm_num +decide [preClampScores, c6State, judgeDimension, dimOps, op5,
      List.filterMap_cons]
  rw [hm]
  norm_num

/-! ## Claim C7: lemmas about the `operator.ior` reducer -/

theorem lookupD_cons {α : Type} (x : String × α) (l : List (String × α))
    (k : String) :
    lookupD (x :: l) k = if x.1 = k then some x.2 else lookupD l k := by
  by_cases hx : x.1 = k
  · simp [lookupD, List.find?_cons_of_pos, hx]
  · simp [lookupD, List.find?_cons_of_neg, hx]

theorem lookupD_eq_none_iff {α : Type} (m : List (String × α)) (k : String) :
    lookupD m k = none ↔ k ∉ keysOf m := by
  induction m with
  | nil => simp [lookupD, keysOf]
  | cons x t ih =>
      rw [lookupD_cons]
      by_cases hx : x.1 = k
      · simp [hx, keysOf]
      · rw [if_neg hx, ih]
        simp only [keysOf, List.map_cons, List.mem_cons, not_or]
        exact ⟨fun h => ⟨fun he => hx he.symm, h⟩, fun h => h.2⟩

theorem lookupD_append {α : Type} (a b : List (String × α)) (k : String) :
    lookupD (a ++ b) k =
      match lookupD a k with
      | some v => some v
      | none => lookupD b k := by
  induction a with
  | nil => simp [lookupD]
  | cons x t ih =>
      rw [List.cons_append, lookupD_cons, lookupD_cons]
      by_cases hx : x.1 = k <;> simp [hx, ih]

theorem lookupD_map_replace {α : Type} (m : List (String × α)) (k : String)
    (v : α) (k' : String) :
    lookupD (m.map (fun kv => if kv.1 == k then (kv.1, v) else kv)) k' =
      if k' = k then (if k ∈ keysOf m then some v else none)
      else lookupD m k' := by
  induction m with
  | nil => by_cases h : k' = k <;> simp [lookupD, keysOf, h]
  | cons kv t ih =>
      by_cases hk : kv.1 = k
      · simp only [List.map_cons,
          if_pos (show (kv.1 == k) = true from beq_iff_eq.2 hk)]
        rw [lookupD_cons]
        by_cases hk' : k' = k
        · subst hk'
          simp [hk, keysOf]
        · have hne : ¬ kv.1 = k' := fun he => hk' (he.symm.trans hk)
          rw [if_neg hne, ih, if_neg hk', if_neg hk', lookupD_cons, if_neg hne]
      · simp only [List.map_cons,
          if_neg (show ¬ (kv.1 == k) = true by simpa using hk)]
        rw [lookupD_cons]
        by_cases hk' : k' = k
        · subst hk'
          have hne : ¬ kv.1 = k' := hk
          rw [if_neg hne, ih, if_pos rfl, if_pos rfl]
          have hiff : k' ∈ keysOf (kv :: t) ↔ k' ∈ keysOf t := by
            simp only [keysOf, List.map_cons, List.mem_cons]
            exact ⟨fun h => h.resolve_left (fun he => absurd he.symm hne),
              Or.inr⟩
          by_cases hmem : k' ∈ keysOf t
          · rw [if_pos hmem, if_pos (hiff.mpr hmem)]
          · rw [if_neg hmem, if_neg (fun hc => hmem (hiff.mp hc))]
        · rw [ih, if_neg hk', if_neg hk', lookupD_cons]

theorem mem_keysOf_any {α : Type} (m : List (String × α)) (k : String) :
    (m.any (fun kv => kv.1 == k)) = true ↔ k ∈ keysOf m := by
  rw [List.any_eq_true]
  constructor
  · rintro ⟨kv, hm, he⟩
    exact (beq_iff_eq.1 he) ▸ List.mem_map_of_mem (fun kv => kv.1) hm
  · intro hmem
    obtain ⟨kv, hm, he⟩ := List.mem_map.1 hmem
    exact ⟨kv, hm, beq_iff_eq.2 he⟩

theorem lookupD_insertIor {α : Type} (m : List (String × α)) (k : String)
    (v : α) (k' : String) :
    lookupD (insertIor m k v) k' = if k' = k then some v else lookupD m k' := by
  unfold insertIor
  by_cases hmem : k ∈ keysOf m
  · rw [if_pos ((mem_keysOf_any m k).2 hmem), lookupD_map_replace]
    by_cases hk' : k' = k <;> simp [hk', hmem]
  · rw [if_neg (by
      intro hc
      exact hmem ((mem_keysOf_any m k).1 hc))]
    rw [lookupD_append]
    by_cases hk' : k' = k
    · subst hk'
      rw [(lookupD_eq_none_iff m k').2 hmem]
      simp [lookupD_cons]
    · cases h : lookupD m k' <;> simp [h, lookupD_cons, hk', lookupD]
      exact fun he => hk' he.symm

theorem lookupD_iorDict {α : Type} (b : List (String × α))
    (hb : (keysOf b).Nodup) (a : List (String × α)) (k : String) :
    lookupD (iorDict a b) k =
      match lookupD b k with
      | some v => some v
      | none => lookupD a k := by
  induction b generalizing a with
  | nil => simp [iorDict, lookupD]
  | cons kv t ih =>
      have hnd : (keysOf t).Nodup ∧ kv.1 ∉ keysOf t := by
        rw [keysOf, List.map_cons, List.nodup_cons] at hb
        exact ⟨hb.2, hb.1⟩
      have step : iorDict a (kv :: t) = iorDict (insertIor a kv.1 kv.2) t := rfl
      rw [step, ih hnd.1, lookupD_cons]
      by_cases hk : kv.1 = k
      · subst hk
        rw [(lookupD_eq_none_iff t kv.1).2 hnd.2]
        simp [lookupD_insertIor]
      · rw [if_neg hk]
        cases h : lookupD t k with
        | some v => simp [h]
        | none =>
            simp only [h]
            rw [lookupD_insertIor, if_neg (fun he => hk he.symm)]

theorem foldl_hitStep_acc {α : Type} (k : String) :
    ∀ (ds : List (List (String × α))) (acc : Option α),
      ds.foldl (hitStep k) acc =
        match lastHit ds k with
        | some v => some v
        | none => acc := by
  intro ds
  induction ds with
  | nil => intro acc; rfl
  | cons d t ih =>
      intro acc
      show t.foldl (hitStep k) (hitStep k acc d) = _
      rw [ih (hitStep k acc d)]
      have hc : lastHit (d :: t) k =
          match lastHit t k with
          | some v => some v
          | none => hitStep k none d := by
        show t.foldl (hitStep k) (hitStep k none d) = _
        rw [ih (hitStep k none d)]
      rw [hc]
      cases lastHit t k with
      | some v => rfl
      | none => cases h : lookupD d k <;> simp [hitStep, h]

theorem lastHit_cons {α : Type} (d : List (String × α))
    (t : List (List (String × α))) (k : String) :
    lastHit (d :: t) k =
      match lastHit t k with
      | some v => some v
      | none => lookupD d k := by
  show t.foldl (hitStep k) (hitStep k none d) = _
  rw [foldl_hitStep_acc k t (hitStep k none d)]
  cases lastHit t k with
  | some v => rfl
  | none => cases h : lookupD d k <;> simp [hitStep, h]

theorem lookupD_mergeAll {α : Type} (ds : List (List (String × α)))
    (hnd : ∀ d ∈ ds, (keysOf d).Nodup) (k : String) :
    lookupD (mergeAll ds) k =
      match lastHit ds k with
      | some v => some v
      | none => none := by
  suffices h : ∀ (a : List (String × α)),
      lookupD (ds.foldl iorDict a) k =
        match lastHit ds k with
        | some v => some v
        | none => lookupD a k by
    rw [mergeAll, h []]
    cases lastHit ds k <;> simp [lookupD]
  induction ds with
  | nil => intro a; rfl
  | cons d t ih =>
      intro a
      have hd := hnd d (List.mem_cons_self d t)
      have ht : ∀ d' ∈ t, (keysOf d').Nodup :=
        fun d' hm => hnd d' (List.mem_cons_of_mem d hm)
      rw [List.foldl_cons, ih ht, lastHit_cons, lookupD_iorDict d hd a k]
      cases lastHit t k <;> cases lookupD d k <;> rfl

theorem lastHit_eq_none_iff {α : Type} (ds : List (List (String × α)))
    (k : String) :
    lastHit ds k = none ↔ ∀ d ∈ ds, lookupD d k = none := by
  induction ds with
  | nil => simp [lastHit]
  | cons d t ih =>
      rw [lastHit_cons]
      cases h : lastHit t k with
      | some v =>
          simp only []
          constructor
          · intro hc; cases hc
          · intro hall
            have : lastHit t k = none :=
              ih.2 (fun d' hm => hall d' (List.mem_cons_of_mem d hm))
            rw [h] at this; cases this
      | none =>
          simp only []
          constructor
          · intro hnone d' hm
            rcases List.mem_cons.1 hm with rfl | hm'
            · exact hnone
            · exact (ih.1 h) d' hm'
          · intro hall
            exact hall d (List.mem_cons_self d t)

theorem lastHit_of_mem {α : Type} (ds : List (List (String × α)))
    (hdisj : List.Pairwise (fun d1 d2 => ∀ k, k ∈ keysOf d1 → k ∉ keysOf d2) ds)
    (d : List (String × α)) (hd : d ∈ ds) (k : String) (v : α)
    (hv : lookupD d k = some v) :
    lastHit ds k = some v := by
  induction ds with
  | nil => cases hd
  | cons d0 t ih =>
      rw [List.pairwise_cons] at hdisj
      rw [lastHit_cons]
      rcases List.mem_cons.1 hd with rfl | hm
      · have hk : k ∈ keysOf d := by
          by_contra hc
          rw [← lookupD_eq_none_iff] at hc
          rw [hv] at hc; cases hc
        have : ∀ d' ∈ t, lookupD d' k = none := fun d' hm' =>
          (lookupD_eq_none_iff d' k).2 (hdisj.1 d' hm' k hk)
        rw [(lastHit_eq_none_iff t k).2 this, hv]
      · rw [ih hdisj.2 hm]

theorem lastHit_perm {α : Type} {ds ds' : List (List (String × α))}
    (hp : ds.Perm ds')
    (hdisj : List.Pairwise (fun d1 d2 => ∀ k, k ∈ keysOf d1 → k ∉ keysOf d2) ds)
    (k : String) : lastHit ds k = lastHit ds' k := by
  induction hp with
  | nil => rfl
  | cons d p ih =>
      rw [List.pairwise_cons] at hdisj
      rw [lastHit_cons, lastHit_cons, ih hdisj.2]
  | swap d1 d2 t =>
      rw [List.pairwise_cons] at hdisj
      have h12 : ∀ k, k ∈ keysOf d2 → k ∉ keysOf d1 :=
        hdisj.1 d1 (List.mem_cons_self d1 _)
      rw [lastHit_cons, lastHit_cons, lastHit_cons, lastHit_cons]
      cases ht : lastHit t k
      · cases h1 : lookupD d1 k <;> cases h2 : lookupD d2 k <;> try rfl
        · exfalso
          have hk2 : k ∈ keysOf d2 := by
            by_contra hc
            rw [← lookupD_eq_none_iff] at hc
            rw [h2] at hc; cases hc
          have hk1 : k ∈ keysOf d1 := by
            by_contra hc
            rw [← lookupD_eq_none_iff] at hc
            rw [h1] at hc; cases hc
          exact h12 k hk2 hk1
      · rfl
  | trans p1 p2 ih1 ih2 =>
      have hsym : Symmetric
          (fun (d1 d2 : List (String × α)) =>
            ∀ k, k ∈ keysOf d1 → k ∉ keysOf d2) := by
        intro a b hab k hkb hka
        exact hab k hka hkb
      have hdisj2 := (p1.pairwise_iff (fun hab => hsym hab)).1 hdisj
      rw [ih1 hdisj, ih2 hdisj2]

/-- C7: for branch deltas with pairwise-disjoint key sets (each delta a
dict, so with distinct keys), the `operator.ior` fold (a) preserves every
branch's full evidence list under its key, (b) produces exactly the
union of the branches' key sets, and (c) yields the same lookups for
every completion order of the branches. -/
theorem C7_keywise_union_merge
    (ds : List (List (String × List Evidence)))
    (hnd : ∀ d ∈ ds, (keysOf d).Nodup)
    (hdisj : List.Pairwise
      (fun d1 d2 => ∀ k, k ∈ keysOf d1 → k ∉ keysOf d2) ds) :
    ((∀ d ∈ ds, ∀ k v, lookupD d k = some v →
        lookupD (mergeAll ds) k = some v) ∧
     (∀ k, k ∈ keysOf (mergeAll ds) ↔ ∃ d ∈ ds, k ∈ keysOf d) ∧
     (∀ ds', ds.Perm ds' →
        ∀ k, lookupD (mergeAll ds) k = lookupD (mergeAll ds') k)) := by
  refine ⟨?_, ?_, ?_⟩
  · intro d hd k v hv
    rw [lookupD_mergeAll ds hnd k, lastHit_of_mem ds hdisj d hd k v hv]
  · intro k
    constructor
    · intro hmem
      by_contra hall
      push_neg at hall
      have hnone : lastHit ds k = none :=
        (lastHit_eq_none_iff ds k).2
          (fun d hm => (lookupD_eq_none_iff d k).2 (hall d hm))
      have hno : lookupD (mergeAll ds) k = none := by
        rw [lookupD_mergeAll ds hnd k, hnone]
      exact ((lookupD_eq_none_iff _ k).1 hno) hmem
    · rintro ⟨d, hd, hk⟩
      have hne : lookupD d k ≠ none :=
        fun hc => ((lookupD_eq_none_iff d k).1 hc) hk
      obtain ⟨v, hv⟩ := Option.ne_none_iff_exists'.1 hne
      have hlast := lastHit_of_mem ds hdisj d hd k v hv
      have hm : lookupD (mergeAll ds) k = some v := by
        rw [lookupD_mergeAll ds hnd k, hlast]
      by_contra hc
      rw [← lookupD_eq_none_iff, hm] at hc
      cases hc
  · intro ds' hp k
    have hnd' : ∀ d ∈ ds', (keysOf d).Nodup :=
      fun d hm => hnd d (hp.symm.subset hm)
    rw [lookupD_mergeAll ds hnd k, lookupD_mergeAll ds' hnd' k,
      lastHit_perm hp hdisj k]

/-- C7 witness: two concrete disjoint-key deltas (one from the repo
branch, one carrying the doc and vision keys): the merged map holds each
branch's list unchanged, its keys are the union, and the reversed
completion order yields identical lookups. -/
theorem C7_keywise_union_witness :
    lookupD (mergeAll [[("repo", [astEvDenied])],
      [("doc", [docEvFound]), ("vision", [visEvFound])]]) "repo" =
      some [astEvDenied] ∧
    ("doc" ∈ keysOf (mergeAll [[("repo", [astEvDenied])],
      [("doc", [docEvFound]), ("vision", [visEvFound])]]) ↔
      ∃ d ∈ [[("repo", [astEvDenied])],
        [("doc", [docEvFound]), ("vision", [visEvFound])]], "doc" ∈ keysOf d) ∧
    lookupD (mergeAll [[("repo", [astEvDenied])],
      [("doc", [docEvFound]), ("vision", [visEvFound])]]) "vision" =
      lookupD (mergeAll [[("doc", [docEvFound]), ("vision", [visEvFound])],
        [("repo", [astEvDenied])]]) "vision" := by
  have hnd : ∀ d ∈ [[("repo", [astEvDenied])],
      [("doc", [docEvFound]), ("vision", [visEvFound])]],
      (keysOf d).Nodup := by
    intro d hm
    rcases List.mem_cons.1 hm with rfl | hm'
    · decide
    · rcases List.mem_cons.1 hm' with rfl | hm''
      · decide
      · cases hm''
  have hdisj : List.Pairwise
      (fun (d1 d2 : List (String × List Evidence)) =>
        ∀ k, k ∈ keysOf d1 → k ∉ keysOf d2)
      [[("repo", [astEvDenied])],
       [("doc", [docEvFound]), ("vision", [visEvFound])]] := by
    refine List.Pairwise.cons ?_ (List.Pairwise.cons ?_ List.Pairwise.nil)
    · intro d hm
      rcases List.mem_cons.1 hm with rfl | hm'
      · intro k hk
        have hrep : k = "repo" := by simpa [keysOf] using hk
        subst hrep
        decide
      · cases hm'
    · intro d hm; cases hm
  obtain ⟨h1, h2, h3⟩ := C7_keywise_union_merge _ hnd hdisj
  refine ⟨h1 [("repo", [astEvDenied])] (by simp) "repo" [astEvDenied] rfl,
    h2 "doc", h3 _ ?_ "vision"⟩
  exact List.Perm.swap _ _ _

/-! ## Claims C8 and C9: lemmas about the structural verifier -/

theorem callAttrEffect_preserves (s : VState) (obj : PyNode) (attr : String)
    (args : List PyNode) (hv : s.f.graph_variable_name = none) :
    (callAttrEffect s obj attr args).f.state_graph_instance_found =
      s.f.state_graph_instance_found ∧
    (callAttrEffect s obj attr args).f.graph_variable_name = none ∧
    (callAttrEffect s obj attr args).f.compiled_on_correct_instance =
      s.f.compiled_on_correct_instance := by
  refine ⟨?_, ?_, ?_⟩
  · unfold callAttrEffect
    repeat' split
    all_goals rfl
  · unfold callAttrEffect
    repeat' split
    all_goals exact hv
  · unfold callAttrEffect
    repeat' split
    all_goals try rfl
    all_goals simp [hv, (show ∀ (x : String),
      ((none : Option String) == some x) = false from fun x => rfl)]

theorem assignEffect_no_sg (s : VState) (target : Option String)
    (value : PyNode) (h : isStateGraphCall value = false) :
    assignEffect s target value = s := by
  simp [assignEffect, h]

theorem visit_no_builder_list :
    ∀ (s : VState) (ns : List PyNode), hasSGList ns = false →
      s.f.graph_variable_name = none →
      ((visitArgs s ns).f.state_graph_instance_found =
         s.f.state_graph_instance_found ∧
       (visitArgs s ns).f.graph_variable_name = none ∧
       (visitArgs s ns).f.compiled_on_correct_instance =
         s.f.compiled_on_correct_instance) := by
  intro s0 ns0
  refine visitArgs.induct
    (fun s n => hasSGNode n = false → s.f.graph_variable_name = none →
      ((visitNode s n).f.state_graph_instance_found =
         s.f.state_graph_instance_found ∧
       (visitNode s n).f.graph_variable_name = none ∧
       (visitNode s n).f.compiled_on_correct_instance =
         s.f.compiled_on_correct_instance))
    (fun s ns => hasSGList ns = false → s.f.graph_variable_name = none →
      ((visitArgs s ns).f.state_graph_instance_found =
         s.f.state_graph_instance_found ∧
       (visitArgs s ns).f.graph_variable_name = none ∧
       (visitArgs s ns).f.compiled_on_correct_instance =
         s.f.compiled_on_correct_instance))
    ?_ ?_ ?_ ?_ ?_ ?_ ?_ ?_ ?_ s0 ns0
  · intro s target value ih h hv
    have hsg : isStateGraphCall value = false ∧ hasSGNode value = false := by
      have h' := h
      rw [show hasSGNode (PyNode.assign target value) =
        (isStateGraphCall value || hasSGNode value) from by
          simp [hasSGNode]] at h'
      exact Bool.or_eq_false_iff.1 h'
    have heff : assignEffect s target value = s :=
      assignEffect_no_sg s target value hsg.1
    have hstep : visitNode s (PyNode.assign target value) =
        visitNode (assignEffect s target value) value := by
      simp [visitNode]
    rw [hstep, heff]
    exact (heff ▸ ih) hsg.2 hv
  · intro s fn args ih h hv
    have hargs : hasSGList args = false := by
      simpa [hasSGNode] using h
    have hstep : visitNode s (PyNode.callName fn args) = visitArgs s args := by
      simp [visitNode]
    rw [hstep]
    exact ih hargs hv
  · intro s obj attr args ih1 ih2 h hv
    have hsg : hasSGNode obj = false ∧ hasSGList args = false := by
      have h' := h
      rw [show hasSGNode (PyNode.callAttr obj attr args) =
        (hasSGNode obj || hasSGList args) from by simp [hasSGNode]] at h'
      exact Bool.or_eq_false_iff.1 h'
    obtain ⟨e1, e2, e3⟩ := callAttrEffect_preserves s obj attr args hv
    obtain ⟨f1, f2, f3⟩ := ih1 hsg.1 e2
    obtain ⟨g1, g2, g3⟩ := ih2 hsg.2 f2
    have hstep : visitNode s (PyNode.callAttr obj attr args) =
        visitArgs (visitNode (callAttrEffect s obj attr args) obj) args := by
      simp [visitNode]
    rw [hstep]
    exact ⟨g1.trans (f1.trans e1), g2, g3.trans (f3.trans e3)⟩
  · intro s args ih h hv
    have hargs : hasSGList args = false := by
      simpa [hasSGNode] using h
    have hstep : visitNode s (PyNode.callOther args) = visitArgs s args := by
      simp [visitNode]
    rw [hstep]
    exact ih hargs hv
  · intro s v _ hv
    exact ⟨rfl, hv, rfl⟩
  · intro s id _ hv
    exact ⟨rfl, hv, rfl⟩
  · intro s children ih h hv
    have hch : hasSGList children = false := by
      simpa [hasSGNode] using h
    have hstep : visitNode s (PyNode.other children) = visitArgs s children := by
      simp [visitNode]
    rw [hstep]
    exact ih hch hv
  · intro s _ hv
    exact ⟨rfl, hv, rfl⟩
  · intro s n rest ih1 ih2 h hv
    have hsg : hasSGNode n = false ∧ hasSGList rest = false := by
      have h' := h
      rw [show hasSGList (n :: rest) = (hasSGNode n || hasSGList rest) from by
        simp [hasSGList]] at h'
      exact Bool.or_eq_false_iff.1 h'
    obtain ⟨f1, f2, f3⟩ := ih1 hsg.1 hv
    obtain ⟨g1, g2, g3⟩ := ih2 hsg.2 f2
    have hstep : visitArgs s (n :: rest) = visitArgs (visitNode s n) rest := by
      simp [visitArgs]
    rw [hstep]
    exact ⟨g1.trans f1, g2, g3.trans f3⟩

/-! ## Claim C8 -/

/-- C8: **counterexample.**  A source with no builder instantiation but
one `x.add_edge("a", "b")` call: the verifier reports
`instanceFound=false` as claimed, yet the edge set is **not** empty —
edges are collected independently of the builder. -/
theorem C8_no_builder_nonempty_edges :
    (analyze_graph_structure (some noBuilderEdgeBody)).state_graph_instance_found
      = false ∧
    (analyze_graph_structure (some noBuilderEdgeBody)).edges = [("a", "b")] ∧
    ([("a", "b")] : List (String × String)) ≠ [] := by
  refine ⟨?_, ?_, by decide⟩ <;>
    simp +decide [analyze_graph_structure, noBuilderEdgeBody, visitNode,
      visitArgs, assignEffect, callAttrEffect, isStateGraphCall, getVal,
      adjAppend, bumpCount]

/-- C8 (amended): the graph analysis is a total function (no exception
escapes): a missing or unparsable file yields the zero-value record, and
a source containing no builder instantiation always yields
`instanceFound=false` — but its edge list is empty only when the source
makes no `add_edge` calls (see the counterexample). -/
theorem C8_degrades_without_raising :
    analyze_graph_structure none = {} ∧
    (∀ body, hasSGList body = false →
      (analyze_graph_structure (some body)).state_graph_instance_found = false) := by
  refine ⟨rfl, ?_⟩
  intro body h
  have hmain := visit_no_builder_list {} body h rfl
  simpa [analyze_graph_structure] using hmain.1

/-- C8 witness: the amended theorem applied to the unit tests' negative
source `print('hello world')`. -/
theorem C8_degrades_witness :
    hasSGList printBody = false ∧
    (analyze_graph_structure (some printBody)).state_graph_instance_found
      = false := by
  have h : hasSGList printBody = false := by
    simp [printBody, hasSGList, hasSGNode]
  exact ⟨h, C8_degrades_without_raising.2 printBody h⟩

/-! ## Claim C9 -/

/-- C9: **counterexample.**  A source that binds the builder
instantiation to `builder`, adds exactly two edges from `START` to two
distinct successors and calls `compile()` on that same identifier — but
with the `compile()` call placed before the instantiation.  The claim's
premises hold, yet the verifier reports
`compiledOnCorrectInstance=false` (the binding was not yet recorded when
the `compile()` call was visited). -/
theorem C9_compile_before_instantiation :
    analyze_graph_structure (some compileFirstBody) =
      { state_graph_instance_found := true
        graph_variable_name := some "builder"
        edges := [("START", "a"), ("START", "b")]
        fan_out_count := 2
        fan_in_count := 1
        conditional_edges_count := 0
        is_compiled := true
        compiled_on_correct_instance := false } := by
  simp +decide [analyze_graph_structure, compileFirstBody, visitNode,
    visitArgs, assignEffect, callAttrEffect, isStateGraphCall, getVal,
    adjAppend, bumpCount]

/-- C9 (amended): (1) for the positive source — builder bound to `b`,
two `START` edges to distinct nonempty successors, then `b.compile()`
**after** the instantiation — the verifier reports `instanceFound=true`,
`fanOutCount=2`, `isCompiled=true`, `compiledOnCorrectInstance=true`;
(2) invoking `compile()` on a different identifier than the recorded
binding leaves `compiledOnCorrectInstance=false` (while
`isCompiled=true`); (3) without any builder instantiation in the source,
`compiledOnCorrectInstance` can never become true. -/
theorem C9_positive_case_and_instance_check :
    (∀ b n1 n2 : String, n1 ≠ "" → n2 ≠ "" → n1 ≠ n2 →
       analyze_graph_structure (some (posModule b n1 n2)) =
         { state_graph_instance_found := true
           graph_variable_name := some b
           edges := [("START", n1), ("START", n2)]
           fan_out_count := 2
           fan_in_count := 1
           conditional_edges_count := 0
           is_compiled := true
           compiled_on_correct_instance := true }) ∧
    (∀ b c n1 n2 : String, c ≠ b → n1 ≠ "" → n2 ≠ "" → n1 ≠ n2 →
       (analyze_graph_structure
          (some (wrongCompileModule b c n1 n2))).is_compiled = true ∧
       (analyze_graph_structure
          (some (wrongCompileModule b c n1 n2))).compiled_on_correct_instance
         = false) ∧
    (∀ body, hasSGList body = false →
       (analyze_graph_structure (some body)).compiled_on_correct_instance
         = false) := by
  refine ⟨?_, ?_, ?_⟩
  · intro b n1 n2 h1 h2 h3
    have e1 : (n1 != "") = true := by simp [h1]
    have e2 : (n2 != "") = true := by simp [h2]
    have e12 : (n1 == n2) = false := by
      rw [beq_eq_false_iff_ne]; exact h3
    simp +decide [analyze_graph_structure, posModule, visitNode, visitArgs,
      assignEffect, callAttrEffect, isStateGraphCall, getVal, adjAppend,
      bumpCount, e1, e2, e12]
  · intro b c n1 n2 hcb h1 h2 h3
    have e1 : (n1 != "") = true := by simp [h1]
    have e2 : (n2 != "") = true := by simp [h2]
    have e12 : (n1 == n2) = false := by
      rw [beq_eq_false_iff_ne]; exact h3
    have ebc : (b == c) = false := by
      rw [beq_eq_false_iff_ne]; exact fun he => hcb he.symm
    constructor <;>
      simp +decide [analyze_graph_structure, wrongCompileModule, visitNode,
        visitArgs, assignEffect, callAttrEffect, isStateGraphCall, getVal,
        adjAppend, bumpCount, e1, e2, e12, ebc]
  · intro body h
    have hmain := visit_no_builder_list {} body h rfl
    simpa [analyze_graph_structure] using hmain.2.2

/-- C9 witness: the amended positive case at the concrete identifiers of
the repository's own unit test (`builder`, successors `a` and `b`),
together with the wrong-instance case at `builder2`. -/
theorem C9_positive_case_witness :
    analyze_graph_structure (some (posModule "builder" "a" "b")) =
      { state_graph_instance_found := true
        graph_variable_name := some "builder"
        edges := [("START", "a"), ("START", "b")]
        fan_out_count := 2
        fan_in_count := 1
        conditional_edges_count := 0
        is_compiled := true
        compiled_on_correct_instance := true } ∧
    (analyze_graph_structure
       (some (wrongCompileModule "builder" "builder2" "a" "b"))).compiled_on_correct_instance
      = false :=
  ⟨C9_positive_case_and_instance_check.1 "builder" "a" "b"
     (by decide) (by decide) (by decide),
   (C9_positive_case_and_instance_check.2.1 "builder" "builder2" "a" "b"
     (by decide) (by decide) (by decide) (by decide)).2⟩

end Auditor
